import Mathlib

/-!
A shallow embedding of the HaskPy adaptive partial-application engine
(`haskpy/utils.py`): the signature inspector (`inspect.getfullargspec`
applied to `functools.partial` objects), the callable proxy `Wrapped`,
the curry engine `curry`, and the experimental `curry_new` /
`update_argspec` variant, together with proofs of the behavioural
properties stated in the specification.

Python values are abstracted by a type `V`; a Python callable is
modelled by its declared signature plus its body, a function from the
raw positional and keyword arguments to a value or a raised exception.
Exceptions are split exactly the way `curry` splits them: `TypeError`
(the category the engine catches) versus everything else.
-/

set_option maxHeartbeats 1000000

namespace HaskPy

/-- A Python exception: either a `TypeError` (the "call did not
succeed" category caught by `curry`) or an exception of any other kind
(`ValueError`, `NameError`, `AttributeError`, ...). -/
inductive Exc where
  | typeError (msg : String)
  | otherError (kind : String) (msg : String)
deriving DecidableEq

/-- One declared parameter of a callable: its name and its default
value, if any. -/
structure Param (V : Type) where
  name : String
  default : Option V
deriving DecidableEq

/-- A callable signature (`inspect.Signature`, restricted to the
parameter kinds the engine meets): the positional(-or-keyword)
parameters in declaration order, whether a variadic `*args` collector
is present, the keyword-only parameters, and whether a `**kwargs`
collector is present. -/
structure Sig (V : Type) where
  pos : List (Param V)
  varargs : Bool
  kwonly : List (Param V)
  varkw : Bool
deriving DecidableEq

/-- `inspect.FullArgSpec`: positional parameter names, the trailing
default values, the keyword-only names and their defaults, and the
variadic collectors (modelled by presence flags, since only presence
matters to the engine). -/
structure FullArgSpec (V : Type) where
  args : List String
  varargs : Bool
  varkw : Bool
  defaults : Option (List V)
  kwonlyargs : List String
  kwonlydefaults : Option (List (String × V))
deriving DecidableEq

/-- A Python function: declared signature, metadata (`__name__`,
`__doc__`, `__module__`) and body.  The body runs only after the
runtime has checked the binding of arguments to parameters; it receives
the raw positional and keyword arguments and may return a value or
raise any exception. -/
structure PyFunc (V : Type) where
  spec : Sig V
  pyName : String
  doc : Option String
  module : String
  body : List V → List (String × V) → Except Exc V

/-- The invocation target held by a curried value: nested
`functools.partial` applications over a base function. -/
inductive Target (V : Type) where
  | base (f : PyFunc V)
  | part (t : Target V) (args : List V) (kwargs : List (String × V))

/-- A value handed to `curry`: either a callable target or a
non-callable value (known only by the name of its type). -/
inductive PyVal (V : Type) where
  | func (t : Target V)
  | nonCallable (typeName : String)

/-- The curried value returned by `curry`: with `wrap = true` it is the
`Wrapped` proxy around the engine closure (metadata delegated to
`target`), with `wrap = false` it is the bare closure `wrapped`.
Either way, invoking it runs the curry engine on `target`. -/
structure Curried (V : Type) where
  target : Target V
  wrap : Bool

/-- Observable outcome of invoking a curried value once: a returned
value, a new curried value, or a raised exception. -/
inductive CurryResult (V : Type) where
  | value (v : V)
  | curried (c : Curried V)
  | raised (e : Exc)

variable {V : Type}

/-- Names of the supplied keyword arguments (the keys of the kwargs
dict). -/
def kwKeys (kwargs : List (String × V)) : List String := kwargs.map Prod.fst

/-- More positional arguments than declared positional parameters, for
a target without a `*args` collector. -/
def tooManyPos (s : Sig V) (args : List V) : Bool :=
  !s.varargs && decide (s.pos.length < args.length)

/-- Structural check of the supplied keyword arguments, shared by the
runtime call and the signature inspector (both implement Python's
binding rules): a keyword must not duplicate a parameter already bound
positionally, and must match a remaining positional parameter, a
keyword-only parameter, or a `**kwargs` collector.  Returns the error
message of the first offending keyword. -/
def kwBad (s : Sig V) (args : List V) (kwargs : List (String × V)) : Option String :=
  kwargs.findSome? fun q =>
    if decide (q.1 ∈ (s.pos.take args.length).map (fun p => p.name)) then
      some ("got multiple values for argument " ++ q.1)
    else if decide (q.1 ∈ (s.pos.drop args.length).map (fun p => p.name))
        || decide (q.1 ∈ s.kwonly.map (fun p => p.name)) || s.varkw then
      none
    else
      some ("got an unexpected keyword argument " ++ q.1)

/-- First structural binding error for calling a target of signature
`s` with the given arguments, if any (Python raises `TypeError` with
this message; `inspect.Signature.bind_partial` fails on exactly the
same bindings). -/
def structError (s : Sig V) (args : List V) (kwargs : List (String × V)) :
    Option String :=
  if tooManyPos s args then
    some ("takes " ++ toString s.pos.length ++ " positional arguments but "
      ++ toString args.length ++ " were given")
  else kwBad s args kwargs

/-- Number of required parameters left unsupplied by the binding: the
positional parameters without defaults not covered positionally or by
name, plus the keyword-only parameters without defaults not supplied by
name. -/
def requiredMissing (s : Sig V) (args : List V) (kwargs : List (String × V)) : Nat :=
  ((s.pos.drop args.length).filter
      (fun p => p.default.isNone && !(decide (p.name ∈ kwKeys kwargs)))).length
    + (s.kwonly.filter
      (fun p => p.default.isNone && !(decide (p.name ∈ kwKeys kwargs)))).length

/-- Calling a Python function: the runtime first checks the structural
binding (raising `TypeError` on a bad binding), then that every
required parameter is supplied (raising `TypeError` when some are
missing), and only then runs the body. -/
def callPy (f : PyFunc V) (args : List V) (kwargs : List (String × V)) :
    Except Exc V :=
  match structError f.spec args kwargs with
  | some m => .error (.typeError m)
  | none =>
    if requiredMissing f.spec args kwargs = 0 then f.body args kwargs
    else .error (.typeError ("missing "
        ++ toString (requiredMissing f.spec args kwargs) ++ " required arguments"))

/-- Merging keyword dictionaries the way calling a
`functools.partial` does: later keywords override earlier ones, keys
keep first-occurrence order. -/
def mergeKw (o n : List (String × V)) : List (String × V) :=
  o.map (fun p => ((n.find? (fun q => q.1 == p.1)).getD p))
    ++ n.filter (fun q => o.all (fun p => !(p.1 == q.1)))

/-- Calling a target: a `functools.partial` prepends its stored
positional arguments and merges its stored keywords into the call. -/
def callTarget : Target V → List V → List (String × V) → Except Exc V
  | .base f, args, kwargs => callPy f args kwargs
  | .part t pa pk, args, kwargs => callTarget t (pa ++ args) (mergeKw pk kwargs)

/-- A parameter bound by keyword in a partial keeps its name but
acquires the supplied value as its default (`inspect`'s treatment of
keyword-bound parameters of a `functools.partial`). -/
def setDefault (kwargs : List (String × V)) (p : Param V) : Param V :=
  match kwargs.find? (fun q => q.1 == p.name) with
  | some q => { p with default := some q.2 }
  | none => p

/-- Payload of the signature inspector on a structurally valid binding:
the residual signature of `functools.partial(f, *args, **kwargs)` as
`inspect` computes it.  Positionally bound parameters are dropped; from
the first remaining positional parameter that is bound by keyword
onwards, every positional parameter becomes keyword-only (keyword-bound
ones acquiring the supplied value as default) and the `*args` collector
is dropped; keyword-only parameters bound by name acquire defaults. -/
def residualSig (s : Sig V) (args : List V) (kwargs : List (String × V)) : Sig V :=
  let rest := s.pos.drop args.length
  let keep := rest.takeWhile (fun p => !(decide (p.name ∈ kwKeys kwargs)))
  let moved := rest.dropWhile (fun p => !(decide (p.name ∈ kwKeys kwargs)))
  { pos := keep
    varargs := s.varargs && moved.isEmpty
    kwonly := (moved ++ s.kwonly).map (setDefault kwargs)
    varkw := s.varkw }

/-- The signature inspector (`inspect.getfullargspec` on a
`functools.partial`, at the `inspect.Signature` level): fails with
`InvalidBinding` exactly when the binding is structurally invalid,
otherwise yields the residual signature. -/
def residual (s : Sig V) (args : List V) (kwargs : List (String × V)) :
    Except Unit (Sig V) :=
  match structError s args kwargs with
  | some _ => .error ()
  | none => .ok (residualSig s args kwargs)

/-- Signature of a target: a base function reports its declared
signature; `inspect` resolves a `functools.partial` by computing the
signature of the wrapped callable and applying the stored binding. -/
def specOfTarget : Target V → Except Unit (Sig V)
  | .base f => .ok f.spec
  | .part t args kwargs => do residual (← specOfTarget t) args kwargs

/-- Conversion of an `inspect.Signature` to an `inspect.FullArgSpec`,
as `getfullargspec` performs it: positional names with their trailing
defaults, keyword-only names with their default dict (both `None` when
empty). -/
def toFullArgSpec (s : Sig V) : FullArgSpec V :=
  { args := s.pos.map (fun p => p.name)
    varargs := s.varargs
    varkw := s.varkw
    defaults :=
      match s.pos.filterMap (fun p => p.default) with
      | [] => none
      | ds => some ds
    kwonlyargs := s.kwonly.map (fun p => p.name)
    kwonlydefaults :=
      match s.kwonly.filterMap (fun p => p.default.map (fun v => (p.name, v))) with
      | [] => none
      | ds => some ds }

/-- Translation of `count_required_arguments` from `haskpy/utils.py`:
positional arguments without defaults plus keyword-only arguments
without a value in `kwonlydefaults` (a set difference in the source,
modelled by deduplicated name lists). -/
def count_required_arguments (argspec : FullArgSpec V) : Int :=
  let n_args : Int := (argspec.args.length : Int) -
    (match argspec.defaults with
     | none => 0
     | some ds => (ds.length : Int))
  let defaults : List String :=
    match argspec.kwonlydefaults with
    | none => []
    | some ds => (ds.map Prod.fst).dedup
  let kws := argspec.kwonlyargs.dedup
  let n_kw : Int := ((kws.filter (fun k => !(decide (k ∈ defaults)))).length : Int)
  n_args + n_kw

/-- One invocation of the engine closure `wrapped` defined inside
`curry`, on a curried value holding target `t`: try the raw call; on
`TypeError`, inspect the signature of `functools.partial(t, *args,
**kwargs)` — if the inspector fails re-raise the original error, if the
required count is positive return `curry(fp, wrap=wrap)`, otherwise
re-raise the original error; any other exception propagates untouched.
The second component records whether the signature inspector was
consulted. -/
def wrappedCallT (t : Target V) (wrap : Bool) (args : List V)
    (kwargs : List (String × V)) : CurryResult V × Bool :=
  match callTarget t args kwargs with
  | .ok v => (.value v, false)
  | .error (.typeError m) =>
    ( match specOfTarget (.part t args kwargs) with
      | .error _ => .raised (.typeError m)
      | .ok s =>
        if 0 < count_required_arguments (toFullArgSpec s) then
          .curried ⟨.part t args kwargs, wrap⟩
        else .raised (.typeError m)
    , true)
  | .error e => (.raised e, false)

/-- Result of one invocation of the engine closure (first component of
`wrappedCallT`). -/
def wrappedCall (t : Target V) (wrap : Bool) (args : List V)
    (kwargs : List (String × V)) : CurryResult V :=
  (wrappedCallT t wrap args kwargs).1

/-- `curry(f, wrap)`: rejects non-callables with `TypeError` at
construction time, otherwise returns the curried value (the `Wrapped`
proxy when `wrap`, the bare closure otherwise). -/
def curry (v : PyVal V) (wrap : Bool) : Except Exc (Curried V) :=
  match v with
  | .nonCallable tn => .error (.typeError (tn ++ " object is not callable"))
  | .func t => .ok ⟨t, wrap⟩

/-- Invoking a curried value runs the engine closure on its target. -/
def invoke (c : Curried V) (args : List V) (kwargs : List (String × V)) :
    CurryResult V :=
  wrappedCall c.target c.wrap args kwargs

/-- Feeding a sequence of calls to a curried value, invoking each
intermediate result in turn; a value or raised exception is final. -/
def invokeSeq (r : CurryResult V) (calls : List (List V × List (String × V))) :
    CurryResult V :=
  calls.foldl
    (fun r c =>
      match r with
      | .curried cu => invoke cu c.1 c.2
      | r => r) r

/-- View a direct-call outcome as an invocation outcome. -/
def ofExcept : Except Exc V → CurryResult V
  | .ok v => .value v
  | .error e => .raised e

/-- Erase the (metadata-only) wrap flag of a curried result. -/
def CurryResult.forgetWrap : CurryResult V → CurryResult V
  | .curried c => .curried ⟨c.target, true⟩
  | r => r

/-- Docstring of the `functools.partial` class, reported as `__doc__`
by every partial object. -/
def partialDoc : String :=
  "partial(func, *args, **keywords) - new function with partial application of the given arguments and keywords."

/-- `__doc__` of a target: a base function has its own docstring, a
`functools.partial` object reports the `partial` class docstring. -/
def targetDoc : Target V → Option String
  | .base f => f.doc
  | .part _ _ _ => some partialDoc

/-- `__module__` of a target. -/
def targetModule : Target V → String
  | .base f => f.module
  | .part _ _ _ => "functools"

/-- `__doc__` of a curried value: the `Wrapped` proxy delegates to its
metadata source, which `curry` sets to the invocation target itself
(the base function at the first step, the accumulated partial at later
steps); the bare closure (`wrap = false`) has no docstring. -/
def curriedDoc (c : Curried V) : Option String :=
  if c.wrap then targetDoc c.target else none

/-- `__name__` lookup on a curried value: `Wrapped` defines no
`__name__` accessor, so attribute lookup raises `AttributeError`; the
bare closure is a function object named `wrapped`. -/
def curriedName (c : Curried V) : Except Exc String :=
  if c.wrap then
    .error (.otherError ("AttributeError") ("Wrapped object has no attribute __name__"))
  else .ok ("wrapped")

/-- Displayed signature of a curried value: `Wrapped` delegates
`__signature__` to its metadata source; the bare closure displays the
generic variadic signature of `wrapped`. -/
def curriedSig (c : Curried V) : Except Unit (Sig V) :=
  if c.wrap then specOfTarget c.target
  else .ok { pos := [], varargs := true, kwonly := [], varkw := true }

/-- Literal translation of `update_argspec` from `haskpy/utils.py`
(the sketched incremental signature updater).  Its overflow branch
formats an error message that references the undefined variable `name`,
so Python raises `NameError` there, not the intended `TypeError`; when
`nargs_remain > 0` and `spec.defaults` is `None`, subscripting `None`
raises `TypeError`; the keyword-only fields are passed through
unchanged (the `FIXME` in the source). -/
def update_argspec (spec : FullArgSpec V) (args : List V)
    (kwargs : List (String × V)) : Except Exc (FullArgSpec V) :=
  let _ := kwargs
  let no_varargs := !spec.varargs
  let nargs_takes : Int := (spec.args.length : Int)
  let nargs_given : Int := (args.length : Int)
  let nargs_remain : Int := nargs_takes - nargs_given
  if no_varargs && decide (nargs_remain < 0) then
    .error (.otherError ("NameError") ("name name is not defined"))
  else
    let new_args := spec.args.drop args.length
    if decide (0 < nargs_remain) then
      match spec.defaults with
      | none => .error (.typeError ("NoneType object is not subscriptable"))
      | some ds =>
        .ok { spec with
                args := new_args
                defaults := some (ds.drop (ds.length - nargs_remain.toNat)) }
    else
      .ok { spec with args := new_args, defaults := none }

/-- The call `update_argspec("foo", argspec, args, kwargs)` made inside
`curry_new`: `update_argspec` declares three parameters, so this call
with four positional arguments raises `TypeError` before the body of
`update_argspec` can run. -/
def update_argspec_call (label : String) (argspec : FullArgSpec V)
    (args : List V) (kwargs : List (String × V)) : Except Exc (FullArgSpec V) :=
  let _ := (label, argspec, args, kwargs)
  .error (.typeError ("update_argspec() takes 3 positional arguments but 4 were given"))

/-- Outcome of invoking a `curry_new` value once. -/
inductive CurryNewResult (V : Type) where
  | value (v : V)
  | curried (t : Target V) (argspec : FullArgSpec V)
  | raised (e : Exc)

/-- One invocation of the closure defined inside `curry_new`: try the
raw call; on `TypeError`, obtain the argspec (computing it from the
target on first use), call `update_argspec` with four positional
arguments ("foo", argspec, args, kwargs), treat a `TypeError` from that
call as an invalid binding and re-raise the original error; on success
with a positive required count, recurse on the partial with the updated
argspec. -/
def curry_new_invoke (t : Target V) (argspec : Option (FullArgSpec V))
    (args : List V) (kwargs : List (String × V)) : CurryNewResult V :=
  match callTarget t args kwargs with
  | .ok v => .value v
  | .error (.typeError m) =>
    (match (match argspec with
            | some s => Except.ok s
            | none => (specOfTarget t).map toFullArgSpec) with
     | .error _ => .raised (.typeError m)
     | .ok s =>
       match update_argspec_call ("foo") s args kwargs with
       | .error (.typeError _) => .raised (.typeError m)
       | .error e2 => .raised e2
       | .ok new_spec =>
         if 0 < count_required_arguments new_spec then
           .curried (.part t args kwargs) new_spec
         else .raised (.typeError m))
  | .error e => .raised e

/-- `curry_new(f)`: rejects non-callables with `TypeError` at
construction time, otherwise returns a curried value over the target. -/
def curry_new (v : PyVal V) : Except Exc (Target V) :=
  match v with
  | .nonCallable tn => .error (.typeError (tn ++ " object is not callable"))
  | .func t => .ok t

/-- All declared parameter names of a signature are distinct (true of
every real Python signature). -/
def nodupNames (s : Sig V) : Prop :=
  (((s.pos ++ s.kwonly).map (fun p => p.name))).Nodup

instance (s : Sig V) : Decidable (nodupNames s) := by
  unfold nodupNames; infer_instance

/-- Wrap flag carried by a curried result, if it is one. -/
def wrapOf : CurryResult V → Option Bool
  | .curried c => some c.wrap
  | _ => none

/-- Body of the concrete example `f(x, y, z) = x + y + z`. -/
def addBody : List Int → List (String × Int) → Except Exc Int
  | [x, y, z], _ => .ok (x + y + z)
  | _, _ => .error (.typeError ("bad arguments"))

/-- The specification's concrete example: a three-argument function
named `addThree`. -/
def addThreeF : PyFunc Int :=
  { spec := { pos := [⟨"x", none⟩, ⟨"y", none⟩, ⟨"z", none⟩],
              varargs := false, kwonly := [], varkw := false }
    pyName := "addThree", doc := some ("Add three numbers."), module := "m"
    body := addBody }

/-- Body of the two-argument example `lambda x, y: x - y`. -/
def subBody : List Int → List (String × Int) → Except Exc Int
  | [x, y], _ => .ok (x - y)
  | _, _ => .error (.typeError ("bad arguments"))

/-- Two-argument example function from the source's own comments. -/
def fSub : PyFunc Int :=
  { spec := { pos := [⟨"x", none⟩, ⟨"y", none⟩],
              varargs := false, kwonly := [], varkw := false }
    pyName := "sub", doc := some ("Subtract."), module := "m", body := subBody }

/-- A two-argument function whose body always raises `TypeError`
internally (a target failure on a complete, structurally valid call). -/
def fBoom : PyFunc Int :=
  { spec := { pos := [⟨"x", none⟩, ⟨"y", none⟩],
              varargs := false, kwonly := [], varkw := false }
    pyName := "boom", doc := none, module := "m"
    body := fun _ _ => .error (.typeError ("unsupported operand type")) }

/-- A one-argument function whose body raises `ValueError` (a failure
outside the "call did not succeed" category). -/
def fVal : PyFunc Int :=
  { spec := { pos := [⟨"x", none⟩], varargs := false, kwonly := [], varkw := false }
    pyName := "val", doc := none, module := "m"
    body := fun _ _ => .error (.otherError ("ValueError") ("math domain error")) }

/-! Helper lemmas: counting required parameters. -/

theorem length_filterMap_eq {α β : Type} (f : α → Option β) (l : List α) :
    (l.filterMap f).length = (l.filter (fun a => (f a).isSome)).length := by
  induction l with
  | nil => rfl
  | cons a t ih =>
    cases h : f a with
    | none => simp [List.filterMap_cons, h, List.filter_cons, ih]
    | some b => simp [List.filterMap_cons, h, List.filter_cons, ih]

theorem length_filter_add {α : Type} (p : α → Bool) (l : List α) :
    (l.filter (fun a => !(p a))).length + (l.filter p).length = l.length := by
  induction l with
  | nil => rfl
  | cons a t ih => cases h : p a <;> simp [List.filter_cons, h] <;> omega

theorem map_fst_default_keys (l : List (Param V)) :
    (l.filterMap (fun p => p.default.map (fun v => (p.name, v)))).map Prod.fst
      = (l.filter (fun p => p.default.isSome)).map (fun p => p.name) := by
  induction l with
  | nil => rfl
  | cons a t ih =>
    cases h : a.default <;>
      simp [List.filterMap_cons, h, List.filter_cons, ih]

theorem setDefault_name (kwargs : List (String × V)) (p : Param V) :
    (setDefault kwargs p).name = p.name := by
  unfold setDefault
  cases kwargs.find? (fun q => q.1 == p.name) <;> rfl

theorem setDefault_isNone (kwargs : List (String × V)) (p : Param V) :
    (setDefault kwargs p).default.isNone
      = (p.default.isNone && !(decide (p.name ∈ kwKeys kwargs))) := by
  unfold setDefault
  cases hf : kwargs.find? (fun q => q.1 == p.name) with
  | some q =>
    have hq : q.1 = p.name := by
      have := List.find?_some hf
      simpa using this
    have hmem : p.name ∈ kwKeys kwargs := by
      have hin := List.mem_of_find?_eq_some hf
      exact hq ▸ List.mem_map.mpr ⟨q, hin, rfl⟩
    simp [hmem]
  | none =>
    have hmem : p.name ∉ kwKeys kwargs := by
      intro hm
      obtain ⟨q, hq, hq1⟩ := List.mem_map.mp hm
      rw [List.find?_eq_none] at hf
      exact hf q hq (by simp [hq1])
    simp [hmem]

theorem count_keys_aux (keys : List String) (l : List (Param V))
    (hiff : ∀ p ∈ l, (p.name ∈ keys ↔ p.default.isSome = true)) :
    ((l.map (fun p => p.name)).filter (fun k => !(decide (k ∈ keys)))).length
      = (l.filter (fun p => p.default.isNone)).length := by
  induction l with
  | nil => rfl
  | cons a t ih =>
    have hiff_t : ∀ p ∈ t, (p.name ∈ keys ↔ p.default.isSome = true) :=
      fun p hp => hiff p (List.mem_cons_of_mem a hp)
    have ha := hiff a (List.mem_cons_self a t)
    cases hd : a.default with
    | some v =>
      have hmem : a.name ∈ keys := ha.mpr (by simp [hd])
      simp [List.filter_cons, hd, hmem, ih hiff_t]
    | none =>
      have hmem : a.name ∉ keys := fun hm => by
        rw [hd] at ha
        simpa using ha.mp hm
      simp [List.filter_cons, hd, hmem, ih hiff_t]

theorem count_no_default (l : List (Param V))
    (h : (l.map (fun p => p.name)).Nodup) :
    ((l.map (fun p => p.name)).filter
        (fun k => !(decide (k ∈ (l.filter (fun p => p.default.isSome)).map
          (fun p => p.name))))).length
      = (l.filter (fun p => p.default.isNone)).length := by
  apply count_keys_aux
  intro p hp
  constructor
  · intro hm
    obtain ⟨p2, hp2, hname⟩ := List.mem_map.mp hm
    have hp2l := List.mem_of_mem_filter hp2
    have he : p2 = p := List.inj_on_of_nodup_map h hp2l hp hname
    have hs := (List.mem_filter.mp hp2).2
    rw [← he]
    exact hs
  · intro hs
    exact List.mem_map.mpr ⟨p, List.mem_filter.mpr ⟨hp, hs⟩, rfl⟩

theorem count_required_arguments_eq (a : FullArgSpec V) :
    count_required_arguments a
      = ((a.args.length : Int) - ((a.defaults.getD []).length : Int))
        + ((a.kwonlyargs.dedup.filter
            (fun k => !(decide (k ∈ ((a.kwonlydefaults.getD []).map Prod.fst).dedup)))).length
          : Int) := by
  unfold count_required_arguments
  cases hd : a.defaults <;> cases hk : a.kwonlydefaults <;> simp

theorem toFullArgSpec_defaults_getD (s : Sig V) :
    (toFullArgSpec s).defaults.getD [] = s.pos.filterMap (fun p => p.default) := by
  simp only [toFullArgSpec]
  cases h : s.pos.filterMap (fun p => p.default) <;> simp

theorem toFullArgSpec_kwdefaults_getD (s : Sig V) :
    ((toFullArgSpec s).kwonlydefaults.getD []).map Prod.fst
      = (s.kwonly.filter (fun p => p.default.isSome)).map (fun p => p.name) := by
  rw [← map_fst_default_keys]
  simp only [toFullArgSpec]
  cases h : s.kwonly.filterMap (fun p => p.default.map (fun v => (p.name, v))) <;> simp

theorem count_toFullArgSpec (s : Sig V)
    (hnd : (s.kwonly.map (fun p => p.name)).Nodup) :
    count_required_arguments (toFullArgSpec s)
      = ((s.pos.filter (fun p => p.default.isNone)).length : Int)
        + ((s.kwonly.filter (fun p => p.default.isNone)).length : Int) := by
  rw [count_required_arguments_eq, toFullArgSpec_defaults_getD]
  have h1 : (toFullArgSpec s).args.length = s.pos.length := by
    rw [show (toFullArgSpec s).args = s.pos.map (fun p => p.name) from rfl,
      List.length_map]
  have h2 : (toFullArgSpec s).kwonlyargs.dedup = s.kwonly.map (fun p => p.name) := by
    rw [show (toFullArgSpec s).kwonlyargs = s.kwonly.map (fun p => p.name) from rfl,
      List.dedup_eq_self.mpr hnd]
  rw [h1, h2]
  have h3 : ((s.kwonly.map (fun p => p.name)).filter
        (fun k => !(decide (k ∈ (((toFullArgSpec s).kwonlydefaults.getD []).map
          Prod.fst).dedup)))).length
      = ((s.kwonly.map (fun p => p.name)).filter
        (fun k => !(decide (k ∈ (s.kwonly.filter (fun p => p.default.isSome)).map
          (fun p => p.name))))).length := by
    congr 1
    apply List.filter_congr
    intro k _
    have := toFullArgSpec_kwdefaults_getD s
    simp [List.mem_dedup, this]
  rw [h3, count_no_default s.kwonly hnd]
  have hpos : (s.pos.filter (fun p => p.default.isNone)).length
      + (s.pos.filterMap (fun p => p.default)).length = s.pos.length := by
    rw [length_filterMap_eq]
    have h4 := length_filter_add (fun p : Param V => p.default.isSome) s.pos
    have h5 : s.pos.filter (fun p => !(p.default.isSome))
        = s.pos.filter (fun p => p.default.isNone) :=
      List.filter_congr (fun p _ => by cases hp : p.default <;> simp [hp])
    rw [h5] at h4
    exact h4
  omega

theorem filter_take_drop_split {α : Type} (q p : α → Bool) (l : List α) :
    (l.filter p).length
      = ((l.takeWhile q).filter p).length + ((l.dropWhile q).filter p).length := by
  conv_lhs => rw [← List.takeWhile_append_dropWhile (p := q) (l := l)]
  rw [List.filter_append, List.length_append]

theorem residualSig_kwonly_names (s : Sig V) (args : List V)
    (kwargs : List (String × V)) :
    (residualSig s args kwargs).kwonly.map (fun p => p.name)
      = (((s.pos.drop args.length).dropWhile
          (fun p => !(decide (p.name ∈ kwKeys kwargs))) ++ s.kwonly).map
          (fun p => p.name)) := by
  simp only [residualSig]
  rw [List.map_map]
  apply List.map_congr_left
  intro p _
  simp only [Function.comp_apply]
  exact setDefault_name kwargs p

theorem residualSig_kwonly_nodup (s : Sig V) (args : List V)
    (kwargs : List (String × V)) (hnd : nodupNames s) :
    ((residualSig s args kwargs).kwonly.map (fun p => p.name)).Nodup := by
  rw [residualSig_kwonly_names]
  apply List.Nodup.sublist _ hnd
  apply List.Sublist.map
  exact List.Sublist.append
    ((List.dropWhile_sublist _).trans (List.drop_sublist _ _)) (List.Sublist.refl _)

theorem count_residualSig (s : Sig V) (args : List V) (kwargs : List (String × V))
    (hnd : nodupNames s) :
    count_required_arguments (toFullArgSpec (residualSig s args kwargs))
      = (requiredMissing s args kwargs : Int) := by
  rw [count_toFullArgSpec _ (residualSig_kwonly_nodup s args kwargs hnd)]
  have hpos_filter : ((residualSig s args kwargs).pos.filter
        (fun p => p.default.isNone)).length
      = (((s.pos.drop args.length).takeWhile
            (fun p => !(decide (p.name ∈ kwKeys kwargs)))).filter
          (fun p => p.default.isNone && !(decide (p.name ∈ kwKeys kwargs)))).length := by
    congr 1
    apply List.filter_congr
    intro p hp
    have hqp := List.mem_takeWhile_imp hp
    rw [hqp, Bool.and_true]
  have hkw_filter : ((residualSig s args kwargs).kwonly.filter
        (fun p => p.default.isNone)).length
      = (((s.pos.drop args.length).dropWhile
            (fun p => !(decide (p.name ∈ kwKeys kwargs)))).filter
          (fun p => p.default.isNone && !(decide (p.name ∈ kwKeys kwargs)))).length
        + (s.kwonly.filter
          (fun p => p.default.isNone && !(decide (p.name ∈ kwKeys kwargs)))).length := by
    have h0 : (residualSig s args kwargs).kwonly
        = (((s.pos.drop args.length).dropWhile
            (fun p => !(decide (p.name ∈ kwKeys kwargs)))) ++ s.kwonly).map
            (setDefault kwargs) := rfl
    rw [h0, List.filter_map, List.length_map]
    have h1 : ((((s.pos.drop args.length).dropWhile
          (fun p => !(decide (p.name ∈ kwKeys kwargs)))) ++ s.kwonly).filter
          ((fun p => p.default.isNone) ∘ setDefault kwargs))
        = ((((s.pos.drop args.length).dropWhile
            (fun p => !(decide (p.name ∈ kwKeys kwargs)))) ++ s.kwonly).filter
            (fun p => p.default.isNone && !(decide (p.name ∈ kwKeys kwargs)))) := by
      apply List.filter_congr
      intro p _
      simp only [Function.comp_apply]
      exact setDefault_isNone kwargs p
    rw [h1, List.filter_append, List.length_append]
  rw [hpos_filter, hkw_filter]
  unfold requiredMissing
  rw [filter_take_drop_split (fun p : Param V => !(decide (p.name ∈ kwKeys kwargs)))
    (fun p => p.default.isNone && !(decide (p.name ∈ kwKeys kwargs)))
    (s.pos.drop args.length)]
  push_cast
  ring

/-! Helper lemmas: the runtime call and the curry engine. -/

theorem specOfTarget_part_base (f : PyFunc V) (args : List V)
    (kwargs : List (String × V)) :
    specOfTarget (Target.part (.base f) args kwargs) = residual f.spec args kwargs :=
  rfl

theorem residual_of_valid (s : Sig V) (args : List V) (kwargs : List (String × V))
    (h : structError s args kwargs = none) :
    residual s args kwargs = .ok (residualSig s args kwargs) := by
  unfold residual
  rw [h]

theorem residual_of_invalid (s : Sig V) (args : List V) (kwargs : List (String × V))
    (m : String) (h : structError s args kwargs = some m) :
    residual s args kwargs = .error () := by
  unfold residual
  rw [h]

theorem callPy_body (f : PyFunc V) (args : List V) (kwargs : List (String × V))
    (hok : structError f.spec args kwargs = none)
    (hmiss : requiredMissing f.spec args kwargs = 0) :
    callPy f args kwargs = f.body args kwargs := by
  unfold callPy
  rw [hok]
  simp [hmiss]

theorem callPy_missing (f : PyFunc V) (args : List V) (kwargs : List (String × V))
    (hok : structError f.spec args kwargs = none)
    (hmiss : requiredMissing f.spec args kwargs ≠ 0) :
    callPy f args kwargs = .error (.typeError ("missing "
      ++ toString (requiredMissing f.spec args kwargs) ++ " required arguments")) := by
  unfold callPy
  rw [hok]
  simp [hmiss]

theorem callPy_invalid (f : PyFunc V) (args : List V) (kwargs : List (String × V))
    (m : String) (hbad : structError f.spec args kwargs = some m) :
    callPy f args kwargs = .error (.typeError m) := by
  unfold callPy
  rw [hbad]

theorem takeWhile_all_true {α : Type} (p : α → Bool) (l : List α)
    (h : ∀ a ∈ l, p a = true) : l.takeWhile p = l := by
  induction l with
  | nil => rfl
  | cons a t ih =>
    rw [List.takeWhile_cons, h a (List.mem_cons_self a t)]
    simp [ih (fun b hb => h b (List.mem_cons_of_mem a hb))]

theorem dropWhile_all_true {α : Type} (p : α → Bool) (l : List α)
    (h : ∀ a ∈ l, p a = true) : l.dropWhile p = [] := by
  induction l with
  | nil => rfl
  | cons a t ih =>
    rw [List.dropWhile_cons, h a (List.mem_cons_self a t)]
    simp [ih (fun b hb => h b (List.mem_cons_of_mem a hb))]

theorem mergeKw_nil_left (n : List (String × V)) : mergeKw [] n = n := by
  unfold mergeKw
  simp

theorem residualSig_nil_kwargs (s : Sig V) (args : List V) :
    residualSig s args []
      = { pos := s.pos.drop args.length, varargs := s.varargs,
          kwonly := s.kwonly, varkw := s.varkw } := by
  have hpred : ∀ p ∈ s.pos.drop args.length,
      (!(decide (p.name ∈ kwKeys ([] : List (String × V))))) = true := by
    intro p _
    simp [kwKeys]
  have hmap : s.kwonly.map (setDefault ([] : List (String × V))) = s.kwonly :=
    List.map_id'' (fun p => rfl) s.kwonly
  simp only [residualSig]
  rw [takeWhile_all_true _ _ hpred, dropWhile_all_true _ _ hpred,
    List.nil_append, hmap]
  simp

theorem structError_nil_kwargs (s : Sig V) (args : List V)
    (hlen : args.length ≤ s.pos.length) :
    structError s args [] = none := by
  unfold structError tooManyPos kwBad
  simp [Nat.not_lt.mpr hlen]

theorem residual_nil_kwargs_ok (s : Sig V) (args : List V)
    (hlen : args.length ≤ s.pos.length) :
    residual s args []
      = .ok { pos := s.pos.drop args.length, varargs := s.varargs,
              kwonly := s.kwonly, varkw := s.varkw } := by
  rw [residual_of_valid _ _ _ (structError_nil_kwargs s args hlen),
    residualSig_nil_kwargs]

theorem requiredMissing_all_required (s : Sig V) (args : List V)
    (hdef : ∀ p ∈ s.pos, p.default = none) (hkw : s.kwonly = []) :
    requiredMissing s args [] = s.pos.length - args.length := by
  unfold requiredMissing
  rw [hkw]
  have hfe : (s.pos.drop args.length).filter
      (fun p => p.default.isNone && !(decide (p.name ∈ kwKeys ([] : List (String × V)))))
      = s.pos.drop args.length := by
    apply List.filter_eq_self.mpr
    intro p hp
    have hd := hdef p (List.mem_of_mem_drop hp)
    simp [hd, kwKeys]
  rw [hfe, List.length_drop]
  simp

theorem invokeSeq_curried_cons (cu : Curried V) (c : List V × List (String × V))
    (cs : List (List V × List (String × V))) :
    invokeSeq (.curried cu) (c :: cs) = invokeSeq (invoke cu c.1 c.2) cs := rfl

theorem invokeSeq_value (v : V) (cs : List (List V × List (String × V))) :
    invokeSeq (.value v) cs = .value v := by
  induction cs with
  | nil => rfl
  | cons c cs ih => exact ih

theorem invokeSeq_raised (e : Exc) (cs : List (List V × List (String × V))) :
    invokeSeq (.raised e) cs = .raised e := by
  induction cs with
  | nil => rfl
  | cons c cs ih => exact ih

theorem feed_chain (f : PyFunc V) (w : Bool)
    (hdef : ∀ p ∈ f.spec.pos, p.default = none)
    (hkw : f.spec.kwonly = []) :
    ∀ (groups : List (List V)) (t : Target V) (fed : List V),
      (∀ a k, callTarget t a k = callPy f (fed ++ a) k) →
      specOfTarget t = .ok { pos := f.spec.pos.drop fed.length,
                             varargs := f.spec.varargs, kwonly := f.spec.kwonly,
                             varkw := f.spec.varkw } →
      groups ≠ [] →
      (∀ g ∈ groups, g ≠ []) →
      fed.length + groups.flatten.length = f.spec.pos.length →
      invokeSeq (.curried ⟨t, w⟩) (groups.map (fun g => (g, [])))
        = ofExcept (f.body (fed ++ groups.flatten) []) := by
  intro groups
  induction groups with
  | nil =>
    intro t fed _ _ hne _ _
    exact absurd rfl hne
  | cons g gs ih =>
    intro t fed hrep hspec _ hgs hlen
    rw [List.flatten_cons] at hlen ⊢
    have hlen2 : (fed ++ g).length ≤ f.spec.pos.length := by
      rw [List.length_append]
      simp only [List.length_append] at hlen
      omega
    have hse : structError f.spec (fed ++ g) [] = none :=
      structError_nil_kwargs f.spec (fed ++ g) hlen2
    have hmiss : requiredMissing f.spec (fed ++ g) []
        = f.spec.pos.length - (fed ++ g).length :=
      requiredMissing_all_required f.spec (fed ++ g) hdef hkw
    have hsubdrop : g.length ≤ (f.spec.pos.drop fed.length).length := by
      rw [List.length_drop]
      simp only [List.length_append] at hlen
      omega
    have hres : specOfTarget (Target.part t g [])
        = .ok { pos := f.spec.pos.drop ((fed ++ g).length),
                varargs := f.spec.varargs, kwonly := f.spec.kwonly,
                varkw := f.spec.varkw } := by
      have h1 : specOfTarget (Target.part t g [])
          = residual { pos := f.spec.pos.drop fed.length, varargs := f.spec.varargs,
                       kwonly := f.spec.kwonly, varkw := f.spec.varkw } g [] := by
        simp only [specOfTarget, hspec]
        rfl
      rw [h1, residual_nil_kwargs_ok _ _ hsubdrop]
      have h2 : (f.spec.pos.drop fed.length).drop g.length
          = f.spec.pos.drop ((fed ++ g).length) := by
        rw [List.drop_drop, List.length_append]
      simp only []
      rw [h2]
    have hcnt : count_required_arguments (toFullArgSpec
        { pos := f.spec.pos.drop ((fed ++ g).length), varargs := f.spec.varargs,
          kwonly := f.spec.kwonly, varkw := f.spec.varkw })
        = ((f.spec.pos.length - (fed ++ g).length : Nat) : Int) := by
      rw [count_toFullArgSpec _ (by rw [hkw]; simp)]
      have h3 : (f.spec.pos.drop ((fed ++ g).length)).filter
          (fun p => p.default.isNone) = f.spec.pos.drop ((fed ++ g).length) := by
        apply List.filter_eq_self.mpr
        intro p hp
        simp [hdef p (List.mem_of_mem_drop hp)]
      rw [hkw]
      simp only [List.filter_nil, List.length_nil, Nat.cast_zero, add_zero]
      rw [h3, List.length_drop]
    rw [List.map_cons, invokeSeq_curried_cons]
    have hinv : invoke ⟨t, w⟩ g [] = wrappedCall t w g [] := rfl
    rw [hinv]
    cases gs with
    | nil =>
      have hfull : requiredMissing f.spec (fed ++ g) [] = 0 := by
        rw [hmiss, List.length_append]
        simp only [List.flatten_nil, List.length_nil, List.length_append] at hlen
        omega
      have hcall : callPy f (fed ++ g) [] = f.body (fed ++ g) [] :=
        callPy_body f (fed ++ g) [] hse hfull
      have hct : callTarget t g [] = f.body (fed ++ g) [] := by
        rw [hrep g [], hcall]
      simp only [List.flatten_nil, List.append_nil, List.map_nil]
      cases hb : f.body (fed ++ g) [] with
      | ok v =>
        rw [hb] at hct
        simp [wrappedCall, wrappedCallT, hct, invokeSeq_value, ofExcept]
      | error e =>
        rw [hb] at hct
        cases e with
        | typeError m =>
          have hc0 : count_required_arguments (toFullArgSpec
              { pos := f.spec.pos.drop ((fed ++ g).length), varargs := f.spec.varargs,
                kwonly := f.spec.kwonly, varkw := f.spec.varkw }) = 0 := by
            rw [hcnt, List.length_append]
            simp only [List.flatten_nil, List.length_nil, List.length_append] at hlen
            simp
            omega
          rw [List.length_append] at hc0
          simp [wrappedCall, wrappedCallT, hct, hres, hc0, invokeSeq_raised, ofExcept]
        | otherError k m =>
          simp [wrappedCall, wrappedCallT, hct, invokeSeq_raised, ofExcept]
    | cons g2 gs2 =>
      have hflat_pos : 0 < (g2 :: gs2).flatten.length := by
        have hg2 : g2 ≠ [] :=
          hgs g2 (List.mem_cons_of_mem g (List.mem_cons_self g2 gs2))
        rw [List.flatten_cons, List.length_append]
        cases g2 with
        | nil => exact absurd rfl hg2
        | cons x xs => simp
      have hlt : (fed ++ g).length < f.spec.pos.length := by
        rw [List.length_append]
        simp only [List.length_append] at hlen
        omega
      have hne0 : requiredMissing f.spec (fed ++ g) [] ≠ 0 := by
        rw [hmiss]
        omega
      have hct : callTarget t g [] = .error (.typeError ("missing "
          ++ toString (requiredMissing f.spec (fed ++ g) []) ++ " required arguments")) := by
        rw [hrep g []]
        exact callPy_missing f (fed ++ g) [] hse hne0
      have hpos_cnt : 0 < count_required_arguments (toFullArgSpec
          { pos := f.spec.pos.drop ((fed ++ g).length), varargs := f.spec.varargs,
            kwonly := f.spec.kwonly, varkw := f.spec.varkw }) := by
        rw [hcnt]
        have : 0 < f.spec.pos.length - (fed ++ g).length := by omega
        exact_mod_cast this
      have hwc : wrappedCall t w g [] = .curried ⟨.part t g [], w⟩ := by
        have hpos_cnt2 := hpos_cnt
        rw [List.length_append] at hpos_cnt2
        simp [wrappedCall, wrappedCallT, hct, hres, hpos_cnt2]
      rw [hwc]
      have hrep2 : ∀ a k, callTarget (Target.part t g []) a k
          = callPy f ((fed ++ g) ++ a) k := by
        intro a k
        show callTarget t (g ++ a) (mergeKw [] k) = _
        rw [mergeKw_nil_left, hrep (g ++ a) k, List.append_assoc]
      have hlen3 : (fed ++ g).length + (g2 :: gs2).flatten.length
          = f.spec.pos.length := by
        rw [List.length_append]
        simp only [List.length_append] at hlen
        omega
      have hih := ih (Target.part t g []) (fed ++ g) hrep2 hres
        (by simp) (fun x hx => hgs x (List.mem_cons_of_mem g hx)) hlen3
      rw [hih, List.append_assoc]

/-! The claims. -/

/-- C1: failure transparency on full binding.  For every function `f`
and every structurally valid binding that supplies all of `f`'s
required parameters, if the direct call raises a `TypeError` (it must
then come from `f`'s own body), `curry(f)` invoked with the same
arguments re-raises exactly that original exception — it never returns
a curried value and never substitutes another failure. -/
theorem C1_failure_transparency (f : PyFunc V) (w : Bool) (args : List V)
    (kwargs : List (String × V)) (m : String)
    (hnd : nodupNames f.spec)
    (hvalid : structError f.spec args kwargs = none)
    (hfull : requiredMissing f.spec args kwargs = 0)
    (hraise : callPy f args kwargs = .error (.typeError m)) :
    wrappedCall (.base f) w args kwargs = .raised (.typeError m) := by
  have hres : specOfTarget (Target.part (.base f) args kwargs)
      = .ok (residualSig f.spec args kwargs) := by
    rw [specOfTarget_part_base, residual_of_valid _ _ _ hvalid]
  have hcount : count_required_arguments (toFullArgSpec (residualSig f.spec args kwargs))
      = 0 := by
    rw [count_residualSig f.spec args kwargs hnd, hfull]
    rfl
  have hct : callTarget (.base f) args kwargs = .error (.typeError m) := hraise
  simp [wrappedCall, wrappedCallT, hct, hres, hcount]

/-- C1 witness: a two-argument function whose body raises a
`TypeError` internally; `curry` re-raises it on the full call. -/
theorem C1_witness :
    nodupNames fBoom.spec
    ∧ structError fBoom.spec [1, 2] [] = none
    ∧ requiredMissing fBoom.spec [1, 2] [] = 0
    ∧ wrappedCall (.base fBoom) true [1, 2] []
        = .raised (.typeError ("unsupported operand type")) :=
  ⟨by decide, rfl, rfl,
    C1_failure_transparency fBoom true [1, 2] [] ("unsupported operand type")
      (by decide) rfl rfl rfl⟩

/-- C3: transparency on full application (fast path).  Whenever the
direct call of the target returns normally, one invocation of the
curried value returns the same result, and the signature inspector is
not consulted (second component `false`). -/
theorem C3_fast_path (t : Target V) (w : Bool) (args : List V)
    (kwargs : List (String × V)) (v : V)
    (hok : callTarget t args kwargs = .ok v) :
    wrappedCallT t w args kwargs = (.value v, false) := by
  unfold wrappedCallT
  rw [hok]

/-- C3 witness: the three-argument example applied to all three
arguments at once. -/
theorem C3_witness :
    callTarget (.base addThreeF) [1, 2, 3] [] = .ok 6
    ∧ wrappedCallT (.base addThreeF) true [1, 2, 3] [] = (.value 6, false) :=
  ⟨rfl, C3_fast_path (.base addThreeF) true [1, 2, 3] [] 6 rfl⟩

/-- C4: incomplete-call currying step.  On a structurally valid binding
that leaves some required parameter unsupplied, the direct call fails
with `TypeError`, the inspector succeeds with a positive required
count, and the invocation returns a new curried value wrapping the full
accumulated binding over the original target — never a raised
failure. -/
theorem C4_currying_step (f : PyFunc V) (w : Bool) (args : List V)
    (kwargs : List (String × V))
    (hnd : nodupNames f.spec)
    (hvalid : structError f.spec args kwargs = none)
    (hmiss : requiredMissing f.spec args kwargs ≠ 0) :
    wrappedCall (.base f) w args kwargs
      = .curried ⟨.part (.base f) args kwargs, w⟩ := by
  have hres : specOfTarget (Target.part (.base f) args kwargs)
      = .ok (residualSig f.spec args kwargs) := by
    rw [specOfTarget_part_base, residual_of_valid _ _ _ hvalid]
  have hcount : 0 < count_required_arguments (toFullArgSpec (residualSig f.spec args kwargs)) := by
    rw [count_residualSig f.spec args kwargs hnd]
    exact_mod_cast Nat.pos_of_ne_zero hmiss
  have hct : callTarget (.base f) args kwargs = .error (.typeError ("missing "
      ++ toString (requiredMissing f.spec args kwargs) ++ " required arguments")) :=
    callPy_missing f args kwargs hvalid hmiss
  simp [wrappedCall, wrappedCallT, hct, hres, hcount]

/-- C4 witness: the two-argument example applied to one argument
returns a curried value over the accumulated partial binding. -/
theorem C4_witness :
    nodupNames fSub.spec
    ∧ structError fSub.spec [5] [] = none
    ∧ requiredMissing fSub.spec [5] [] ≠ 0
    ∧ wrappedCall (.base fSub) true [5] []
        = .curried ⟨.part (.base fSub) [5] [], true⟩ :=
  ⟨by decide, rfl, by decide,
    C4_currying_step fSub true [5] [] (by decide) rfl (by decide)⟩

/-- C9: uninspected propagation of unrelated failures.  If the direct
call raises anything outside the `TypeError` category, the invocation
re-raises it unchanged, without consulting the signature inspector
(second component `false`) and without returning a curried value. -/
theorem C9_other_errors (t : Target V) (w : Bool) (args : List V)
    (kwargs : List (String × V)) (kind msg : String)
    (herr : callTarget t args kwargs = .error (.otherError kind msg)) :
    wrappedCallT t w args kwargs = (.raised (.otherError kind msg), false) := by
  unfold wrappedCallT
  rw [herr]

/-- C9 witness: a function body raising `ValueError` propagates
uninspected. -/
theorem C9_witness :
    callTarget (.base fVal) [0] [] = .error (.otherError ("ValueError") ("math domain error"))
    ∧ wrappedCallT (.base fVal) true [0] []
        = (.raised (.otherError ("ValueError") ("math domain error")), false) :=
  ⟨rfl, C9_other_errors (.base fVal) true [0] [] ("ValueError") ("math domain error") rfl⟩

/-- C5: invalid-call rejection.  If the binding is structurally invalid
— too many positional arguments without a `*args` collector, an
unknown keyword without a `**kwargs` collector, or a keyword
duplicating a positionally bound parameter — the direct call fails with
the structural `TypeError`, the inspector itself fails (its failure
never surfacing), and the invocation re-raises exactly the original
structural failure instead of currying further. -/
theorem C5_invalid_call (f : PyFunc V) (w : Bool) (args : List V)
    (kwargs : List (String × V))
    (hbad : (f.spec.varargs = false ∧ f.spec.pos.length < args.length)
      ∨ (∃ q ∈ kwargs, q.1 ∉ f.spec.pos.map (fun p => p.name)
          ∧ q.1 ∉ f.spec.kwonly.map (fun p => p.name) ∧ f.spec.varkw = false)
      ∨ (∃ q ∈ kwargs, q.1 ∈ (f.spec.pos.take args.length).map (fun p => p.name))) :
    ∃ m, callPy f args kwargs = .error (.typeError m)
      ∧ wrappedCall (.base f) w args kwargs = .raised (.typeError m) := by
  have hsome : ∃ m, structError f.spec args kwargs = some m := by
    by_cases htm : tooManyPos f.spec args
    · refine ⟨"takes " ++ toString f.spec.pos.length ++ " positional arguments but "
        ++ toString args.length ++ " were given", ?_⟩
      unfold structError
      simp [htm]
    · have hkw : kwBad f.spec args kwargs ≠ none := by
        rw [Ne, kwBad, List.findSome?_eq_none_iff]
        push_neg
        rcases hbad with h1 | h2 | h3
        · exact absurd (by unfold tooManyPos; simp [h1.1, h1.2]) htm
        · obtain ⟨q, hq, hnp, hnk, hvk⟩ := h2
          refine ⟨q, hq, ?_⟩
          have h_take : q.1 ∉ List.take args.length (List.map (fun p => p.name) f.spec.pos) :=
            fun hmem => hnp (List.mem_of_mem_take hmem)
          have h_drop : q.1 ∉ List.drop args.length (List.map (fun p => p.name) f.spec.pos) :=
            fun hmem => hnp (List.mem_of_mem_drop hmem)
          have h_kw : ¬(∃ a ∈ f.spec.kwonly, a.name = q.1) := by
            rintro ⟨a, ha, han⟩
            exact hnk (List.mem_map.mpr ⟨a, ha, han⟩)
          simp [h_take, h_drop, h_kw, hvk]
        · obtain ⟨q, hq, hdup⟩ := h3
          refine ⟨q, hq, ?_⟩
          rw [List.map_take] at hdup
          simp [hdup]
      obtain ⟨m, hm⟩ := Option.ne_none_iff_exists'.mp hkw
      refine ⟨m, ?_⟩
      unfold structError
      simp [htm, hm]
  obtain ⟨m, hm⟩ := hsome
  have hct : callTarget (.base f) args kwargs = .error (.typeError m) :=
    callPy_invalid f args kwargs m hm
  have hres : specOfTarget (Target.part (.base f) args kwargs) = .error () := by
    rw [specOfTarget_part_base, residual_of_invalid _ _ _ m hm]
  exact ⟨m, callPy_invalid f args kwargs m hm,
    by simp [wrappedCall, wrappedCallT, hct, hres]⟩

/-- C5 witness: the three-argument example called with four positional
arguments raises the structural failure and does not curry. -/
theorem C5_witness :
    ∃ m, callPy addThreeF [1, 2, 3, 4] [] = .error (.typeError m)
      ∧ wrappedCall (.base addThreeF) true [1, 2, 3, 4] [] = .raised (.typeError m) :=
  C5_invalid_call addThreeF true [1, 2, 3, 4] [] (Or.inl (by decide))

/-- C2: associativity of application.  For a function whose positional
parameters are all required (no keyword-only parameters), feeding any
splitting of a full argument list into consecutive non-empty groups
through the curried value — each intermediate call returning a new
curried value — produces the same value that the direct call with all
arguments at once returns. -/
theorem C2_associativity (f : PyFunc V) (w : Bool) (groups : List (List V)) (v : V)
    (hdef : ∀ p ∈ f.spec.pos, p.default = none)
    (hkw : f.spec.kwonly = [])
    (hne : groups ≠ [])
    (hgs : ∀ g ∈ groups, g ≠ [])
    (hlen : groups.flatten.length = f.spec.pos.length)
    (hdirect : callPy f groups.flatten [] = .ok v) :
    invokeSeq (.curried ⟨.base f, w⟩) (groups.map (fun g => (g, []))) = .value v := by
  have hrep : ∀ a k, callTarget (Target.base f) a k = callPy f ([] ++ a) k := by
    intro a k
    rw [List.nil_append]
    rfl
  have hspec : specOfTarget (Target.base f)
      = .ok { pos := f.spec.pos.drop ([] : List V).length, varargs := f.spec.varargs,
              kwonly := f.spec.kwonly, varkw := f.spec.varkw } := by
    show Except.ok f.spec = _
    rw [List.length_nil, List.drop_zero]
  have h := feed_chain f w hdef hkw groups (Target.base f) [] hrep hspec hne hgs
    (by rw [List.length_nil]; omega)
  rw [List.nil_append] at h
  have hbody : f.body groups.flatten [] = .ok v := by
    have hse : structError f.spec groups.flatten [] = none :=
      structError_nil_kwargs f.spec groups.flatten (le_of_eq hlen)
    have hm : requiredMissing f.spec groups.flatten [] = 0 := by
      rw [requiredMissing_all_required f.spec groups.flatten hdef hkw, hlen]
      omega
    rw [← callPy_body f groups.flatten [] hse hm]
    exact hdirect
  rw [h, hbody]
  rfl

/-- C2 witness: `curry(addThree)` fed `(1)`, `(2)`, `(3)` one at a time
returns 6, the value of the direct call `addThree(1, 2, 3)`. -/
theorem C2_witness :
    (∀ p ∈ addThreeF.spec.pos, p.default = none)
    ∧ callPy addThreeF ([[1], [2], [3]] : List (List Int)).flatten [] = .ok 6
    ∧ invokeSeq (.curried ⟨.base addThreeF, true⟩)
        (([[1], [2], [3]] : List (List Int)).map (fun g => (g, []))) = .value 6 :=
  ⟨by decide, rfl,
    C2_associativity addThreeF true [[1], [2], [3]] 6 (by decide) rfl
      (by decide) (by decide) rfl rfl⟩

/-- C6 counterexample: metadata is not stable along the curry chain.
For the three-argument `addThree`, partial application returns a
curried value whose reported docstring is the `functools.partial` class
docstring, not the original function's; and even `curry(addThree)`
itself reports no `__name__` at all (attribute lookup on the `Wrapped`
proxy fails), rather than the name `addThree` the claim requires. -/
theorem C6_counterexample :
    invoke ⟨.base addThreeF, true⟩ [1] []
        = .curried ⟨.part (.base addThreeF) [1] [], true⟩
    ∧ curriedDoc ⟨.part (.base addThreeF) [1] [], true⟩
        ≠ curriedDoc ⟨.base addThreeF, true⟩
    ∧ curriedName ⟨.base addThreeF, true⟩ ≠ .ok ("addThree") := by
  refine ⟨rfl, by decide, ?_⟩
  intro h
  simp [curriedName] at h

/-- C6 (amended): `curry(f)` with `wrap = true` delegates docstring and
displayed signature to its metadata source, which at each step is the
current invocation target: the original `f` for `curry(f)` itself, but
the accumulated `functools.partial` object for every intermediate
curried value, whose docstring is therefore the `partial` class
docstring and whose displayed signature is the residual signature.  No
`__name__` accessor is delegated at all: looking up `__name__` on a
wrapped curried value raises `AttributeError`. -/
theorem C6_metadata (f : PyFunc V) (t : Target V) (args : List V)
    (kwargs : List (String × V)) :
    curriedDoc ⟨.base f, true⟩ = f.doc
    ∧ curriedSig ⟨.base f, true⟩ = .ok f.spec
    ∧ curriedName ⟨.base f, true⟩
        = .error (.otherError ("AttributeError") ("Wrapped object has no attribute __name__"))
    ∧ curriedDoc ⟨.part t args kwargs, true⟩ = some partialDoc
    ∧ curriedSig ⟨.part t args kwargs, true⟩ = specOfTarget (.part t args kwargs) :=
  ⟨rfl, rfl, rfl, rfl, rfl⟩

/-- C7 (code bug): the incremental updater disagrees with the signature
inspector.  `curry_new` invokes `update_argspec` with four positional
arguments against its three-parameter definition, so the updater call
itself raises `TypeError`, which `curry_new` treats as an invalid
binding: it re-raises the original missing-arguments failure instead of
currying.  On the same input, `curry` returns a curried value. -/
theorem C7_curry_new_bug :
    curry_new_invoke (.base fSub) none [1] []
        = .raised (.typeError ("missing 1 required arguments"))
    ∧ wrappedCall (.base fSub) true [1] []
        = .curried ⟨.part (.base fSub) [1] [], true⟩ :=
  ⟨rfl, rfl⟩

/-- C8: non-callable rejection at construction time.  `curry` (and
`curry_new`) given a non-callable value fails immediately with a
`TypeError` naming the value's type, and no curried value is ever
constructed around it. -/
theorem C8_not_callable (V : Type) (tn : String) (w : Bool) :
    curry (V := V) (.nonCallable tn) w
        = .error (.typeError (tn ++ " object is not callable"))
    ∧ curry_new (V := V) (.nonCallable tn)
        = .error (.typeError (tn ++ " object is not callable"))
    ∧ ∀ c : Curried V, curry (.nonCallable tn) w ≠ .ok c := by
  refine ⟨rfl, rfl, ?_⟩
  intro c h
  simp [curry] at h

theorem wrappedCall_forgetWrap (t : Target V) (w w' : Bool) (args : List V)
    (kwargs : List (String × V)) :
    (wrappedCall t w args kwargs).forgetWrap
      = (wrappedCall t w' args kwargs).forgetWrap := by
  cases hc : callTarget t args kwargs with
  | ok v => simp [wrappedCall, wrappedCallT, hc]
  | error e =>
    cases e with
    | typeError m =>
      cases hs : specOfTarget (.part t args kwargs) with
      | error u => simp [wrappedCall, wrappedCallT, hc, hs]
      | ok s =>
        by_cases hlt : 0 < count_required_arguments (toFullArgSpec s) <;>
          simp [wrappedCall, wrappedCallT, hc, hs, hlt, CurryResult.forgetWrap]
    | otherError k m => simp [wrappedCall, wrappedCallT, hc]

theorem wrappedCall_wrapOf (t : Target V) (w : Bool) (args : List V)
    (kwargs : List (String × V)) :
    wrapOf (wrappedCall t w args kwargs) ∈ [none, some w] := by
  cases hc : callTarget t args kwargs with
  | ok v => simp [wrappedCall, wrappedCallT, hc, wrapOf]
  | error e =>
    cases e with
    | typeError m =>
      cases hs : specOfTarget (.part t args kwargs) with
      | error u => simp [wrappedCall, wrappedCallT, hc, hs, wrapOf]
      | ok s =>
        by_cases hlt : 0 < count_required_arguments (toFullArgSpec s) <;>
          simp [wrappedCall, wrappedCallT, hc, hs, hlt, wrapOf]
    | otherError k m => simp [wrappedCall, wrappedCallT, hc, wrapOf]

theorem invokeSeq_forgetWrap (calls : List (List V × List (String × V))) :
    ∀ t : Target V,
      (invokeSeq (.curried ⟨t, true⟩) calls).forgetWrap
        = (invokeSeq (.curried ⟨t, false⟩) calls).forgetWrap := by
  induction calls with
  | nil => intro t; rfl
  | cons c cs ih =>
    intro t
    rw [invokeSeq_curried_cons, invokeSeq_curried_cons,
      show invoke ⟨t, true⟩ c.1 c.2 = wrappedCall t true c.1 c.2 from rfl,
      show invoke ⟨t, false⟩ c.1 c.2 = wrappedCall t false c.1 c.2 from rfl]
    have hfw := wrappedCall_forgetWrap t true false c.1 c.2
    cases h1 : wrappedCall t true c.1 c.2 with
    | value v =>
      cases h0 : wrappedCall t false c.1 c.2 <;> rw [h1, h0] at hfw <;>
        simp [CurryResult.forgetWrap] at hfw
      subst hfw
      rfl
    | raised e =>
      cases h0 : wrappedCall t false c.1 c.2 <;> rw [h1, h0] at hfw <;>
        simp [CurryResult.forgetWrap] at hfw
      subst hfw
      rfl
    | curried c1 =>
      obtain ⟨T1, w1⟩ := c1
      have hw1 : w1 = true := by
        have hm := wrappedCall_wrapOf t true c.1 c.2
        rw [h1] at hm
        simpa [wrapOf] using hm
      cases h0 : wrappedCall t false c.1 c.2 with
      | value v => rw [h1, h0] at hfw; simp [CurryResult.forgetWrap] at hfw
      | raised e => rw [h1, h0] at hfw; simp [CurryResult.forgetWrap] at hfw
      | curried c0 =>
        obtain ⟨T0, w0⟩ := c0
        have hw0 : w0 = false := by
          have hm := wrappedCall_wrapOf t false c.1 c.2
          rw [h0] at hm
          simpa [wrapOf] using hm
        have hT : T1 = T0 := by
          rw [h1, h0] at hfw
          simpa [CurryResult.forgetWrap] using hfw
        subst hT
        subst hw1
        subst hw0
        exact ih T1

/-- C10: the undocumented `wrap` flag changes only the metadata
surface, never invocation behaviour.  Along any sequence of
invocations, the results with `wrap = true` and `wrap = false` agree up
to the flag carried by intermediate curried values; the flag is
propagated unchanged into every curried result; and with `wrap = false`
the returned value is the bare closure — no docstring, the closure's
own name `wrapped`, and the closure's generic variadic signature — while
`wrap = true` delegates metadata to the target. -/
theorem C10_wrap_flag (t : Target V) (calls : List (List V × List (String × V)))
    (w : Bool) (args : List V) (kwargs : List (String × V)) :
    (invokeSeq (.curried ⟨t, true⟩) calls).forgetWrap
      = (invokeSeq (.curried ⟨t, false⟩) calls).forgetWrap
    ∧ wrapOf (wrappedCall t w args kwargs) ∈ [none, some w]
    ∧ curriedDoc ⟨t, true⟩ = targetDoc t
    ∧ curriedDoc ⟨t, false⟩ = none
    ∧ curriedName ⟨t, false⟩ = .ok ("wrapped")
    ∧ curriedSig ⟨t, false⟩
        = .ok { pos := [], varargs := true, kwonly := [], varkw := true } :=
  ⟨invokeSeq_forgetWrap calls t, wrappedCall_wrapOf t w args kwargs,
    rfl, rfl, rfl, rfl⟩

end HaskPy
